import Mathlib

/-!
Verification of the provenance-architecture-demo core.

This file shallowly embeds the Go sources of the SLSA provenance architecture
demo (attestation signer, release catalog, rebuild pipeline, build monitor,
policy store, upload authorization) as executable Lean definitions and proves
properties of them.  Go strings are modelled as Lean `String`s (or `List Char`
/ `List Nat` for byte-level work; every string the code manipulates is ASCII,
so byte values and code points coincide), machine integers and timestamps as
`Int`/`Nat`, and external network capabilities (GitHub, PyPI, KMS, Cloud
Build) as explicit environment records of pure functions.
-/

/-- Byte sequence of a string (Go strings are byte strings; all strings
involved are ASCII so byte values equal code points). -/
def strBytes (s : String) : List Nat := s.toList.map Char.toNat

/-- Standard base64 alphabet used by Go `encoding/base64.StdEncoding`. -/
def b64Alphabet : String :=
  "ABCDEFGHIJKLMNOPQRSTUVWXYZabcdefghijklmnopqrstuvwxyz0123456789+/"

/-- Byte of `b64Alphabet` at index `n` (indices used are always `< 64`). -/
def b64Byte (n : Nat) : Nat := (strBytes b64Alphabet).getD n 65

/-- Go `base64.StdEncoding.EncodeToString`: standard base64 with `=` (byte 61)
padding, producing the bytes of the encoded string. -/
def base64Encode : List Nat → List Nat
  | [] => []
  | [b0] => [b64Byte (b0 / 4), b64Byte (b0 % 4 * 16), 61, 61]
  | [b0, b1] => [b64Byte (b0 / 4), b64Byte (b0 % 4 * 16 + b1 / 16), b64Byte (b1 % 16 * 4), 61]
  | b0 :: b1 :: b2 :: rest =>
    b64Byte (b0 / 4) :: b64Byte (b0 % 4 * 16 + b1 / 16) ::
      b64Byte (b1 % 16 * 4 + b2 / 64) :: b64Byte (b2 % 64) :: base64Encode rest

/-- Embedding of `inTotoPayloadType` constant from the signer source. -/
def inTotoPayloadType : String := "application/vnd.in-toto+json"

/-- The pre-authentication encoding built inside `NewDSSE`:
`fmt.Sprintf("DSSEv1 %d %s %d %s", len(payloadType), payloadType,
len(encodedPayload), encodedPayload)`, as bytes.  Go `len` of a string is its
byte length, i.e. `(strBytes ·).length`. -/
def pae (payloadType : String) (encodedPayload : List Nat) : List Nat :=
  strBytes "DSSEv1 " ++ strBytes (toString (strBytes payloadType).length) ++ strBytes " "
    ++ strBytes payloadType ++ strBytes " " ++ strBytes (toString encodedPayload.length)
    ++ strBytes " " ++ encodedPayload

/-- One signature entry of a DSSE envelope (`Signature` struct in the Go
source); `sig` holds the bytes of the base64-encoded signature string. -/
structure DSSESignature where
  keyid : String
  sig : List Nat
  deriving DecidableEq, Repr

/-- Embedding of `DSSE` struct from the signer source; `payload` holds the bytes of the
base64-encoded payload string. -/
structure DSSE where
  payloadType : String
  payload : List Nat
  signatures : List DSSESignature
  deriving DecidableEq, Repr

/-- Embedding of `NewDSSE` from the signer source.  The external KMS signer
(`kmsSign(*kmsKey, ·)`) is abstracted as the function `sign`; `key` is the
configured `*kmsKey` flag value. -/
def NewDSSE (sign : List Nat → List Nat) (key : String) (payload : List Nat) : DSSE :=
  let encodedPayload := base64Encode payload
  let encoded := pae inTotoPayloadType encodedPayload
  { payloadType := inTotoPayloadType
    payload := encodedPayload
    signatures := [{ keyid := "https://cloudkms.googleapis.com/" ++ key
                     sig := base64Encode (sign encoded) }] }

/-- Go `strings.Split` for a single-character separator. -/
def splitOnChar (c : Char) : List Char → List (List Char)
  | [] => [[]]
  | x :: xs =>
    match splitOnChar c xs with
    | [] => [[]]
    | h :: t => if x == c then [] :: h :: t else (x :: h) :: t

/-- Embedding of `ReleaseType` enumeration from the rebuilder source. -/
inductive ReleaseType where
  | unknownReleaseType
  | sourceZip
  | sourceGztar
  | wheelAny
  | wheelManylinux
  | wheelMusllinux
  | wheelMacos
  | wheelWin
  deriving DecidableEq, Repr

/-- Embedding of `getReleaseType` from the rebuilder source.  `strings.TrimSuffix(f,
".whl")` is `take (length - 4)` under the established `HasSuffix`;
`strings.Split(segs[last], ".")[0]` is the `headD` of the dot-split of the
last dash-segment. -/
def getReleaseType (releaseFile : String) : ReleaseType :=
  let cs := releaseFile.toList
  if (".tar.gz".toList).isSuffixOf cs then .sourceGztar
  else if (".zip".toList).isSuffixOf cs then .sourceZip
  else if (".whl".toList).isSuffixOf cs then
    let segs := splitOnChar '-' (cs.take (cs.length - 4))
    let platform := (splitOnChar '.' (segs.getLastD [])).headD []
    if platform == "any".toList then .wheelAny
    else if ("manylinux".toList).isPrefixOf platform then .wheelManylinux
    else if ("musllinux".toList).isPrefixOf platform then .wheelMusllinux
    else if ("macos".toList).isPrefixOf platform then .wheelMacos
    else if ("win".toList).isPrefixOf platform then .wheelWin
    else .unknownReleaseType
  else .unknownReleaseType

/-- Modelled from the spec's words (refinement target for claim C5): the
platform tag is "the last `-`-separated segment before the extension" taken
whole — the spec never truncates it at its first `.`. -/
def classifySpec (releaseFile : String) : ReleaseType :=
  let cs := releaseFile.toList
  if (".tar.gz".toList).isSuffixOf cs then .sourceGztar
  else if (".zip".toList).isSuffixOf cs then .sourceZip
  else if (".whl".toList).isSuffixOf cs then
    let platform := (splitOnChar '-' (cs.take (cs.length - 4))).getLastD []
    if platform == "any".toList then .wheelAny
    else if ("manylinux".toList).isPrefixOf platform then .wheelManylinux
    else if ("musllinux".toList).isPrefixOf platform then .wheelMusllinux
    else if ("macos".toList).isPrefixOf platform then .wheelMacos
    else if ("win".toList).isPrefixOf platform then .wheelWin
    else .unknownReleaseType
  else .unknownReleaseType

/-- Modelled from the spec as amended for claim C5: as `classifySpec`, except
that the platform tag is the part of the last `-`-separated segment before its
first `.` (compound platform tags are dot-joined, and only the first
dot-component is matched). -/
def classifyAmended (releaseFile : String) : ReleaseType :=
  let cs := releaseFile.toList
  if (".tar.gz".toList).isSuffixOf cs then .sourceGztar
  else if (".zip".toList).isSuffixOf cs then .sourceZip
  else if (".whl".toList).isSuffixOf cs then
    let platformTag := (splitOnChar '-' (cs.take (cs.length - 4))).getLastD []
    let platform := (splitOnChar '.' platformTag).headD []
    if platform == "any".toList then .wheelAny
    else if ("manylinux".toList).isPrefixOf platform then .wheelManylinux
    else if ("musllinux".toList).isPrefixOf platform then .wheelMusllinux
    else if ("macos".toList).isPrefixOf platform then .wheelMacos
    else if ("win".toList).isPrefixOf platform then .wheelWin
    else .unknownReleaseType
  else .unknownReleaseType

/-- The characters excluded by the regex class `[^abdp\-\.]` after the
version in the tag-matching regex of `Rebuild` (pre-release / dev / post
marker characters). -/
def markerChars : List Char := ['a', 'b', 'd', 'p', '-', '.']

/-- RE2 metacharacters other than `.`.  The version is interpolated into the
tag regex unescaped, so any of these characters inside a version string
would change the structure of the compiled pattern (quantifiers, groups,
alternation, classes, anchors, escapes) or make `MustCompile` panic; the
embedding below is therefore the regex's denotation only for version strings
containing none of them, and claim C6's characterization is stated under
that hypothesis.  (`.` is singled out because for metacharacter-free
versions it is the one character that still acts specially: a wildcard.) -/
def regexMetaChars : List Char :=
  ['\\', '+', '*', '?', '(', ')', '|', '[', ']', '\x7b', '\x7d', '^', '$']

/-- Denotation of the anchored regex `^(.*[^0-9])?V([^abdp\-\.].*)?$` built
by `Rebuild`, tried at the split position `i`, for a version `V` whose
characters are regex-literal except `.`: prefix `t.take i` (empty, or ending
in a non-digit), then the version pattern — each version character matched
literally except `.`, which the raw interpolation turns into a wildcard for
any single character — then a suffix (empty, or not starting with a marker
character).  For versions containing a character of `regexMetaChars` this is
not the compiled pattern's semantics (see `regexMetaChars`). -/
def versionMatchAt (v t : List Char) (i : Nat) : Bool :=
  let pre := t.take i
  let rest := t.drop i
  let mid := rest.take v.length
  let suf := rest.drop v.length
  (pre.isEmpty || !(pre.getLastD ' ').isDigit) &&
  (mid.length == v.length) &&
  ((v.zip mid).all fun q => q.1 == '.' || q.1 == q.2) &&
  (suf.isEmpty || !(markerChars.contains (suf.headD ' ')))

/-- Embedding of `re.MatchString(tag)` for the regex `^(.*[^0-9])?version([^abdp\-\.].*)?$`
compiled by `Rebuild`: some split position works.  Faithful to the compiled
regex exactly for versions with no metacharacter besides `.` (in particular
every version made of digits and dots); see `regexMetaChars`. -/
def tagMatches (version tag : String) : Bool :=
  (List.range (tag.toList.length + 1)).any (versionMatchAt version.toList tag.toList)

/-- Modelled from the spec's words (refinement target for claim C6): the same
anchored pattern but with the version matched as a literal (the claim says
"the version literal V" — no wildcard for `.`). -/
def versionMatchLitAt (v t : List Char) (i : Nat) : Bool :=
  let pre := t.take i
  let rest := t.drop i
  let mid := rest.take v.length
  let suf := rest.drop v.length
  (pre.isEmpty || !(pre.getLastD ' ').isDigit) &&
  (mid.length == v.length) &&
  ((v.zip mid).all fun q => q.1 == q.2) &&
  (suf.isEmpty || !(markerChars.contains (suf.headD ' ')))

/-- Modelled from the spec's words (refinement target for claim C6). -/
def tagMatchesSpec (version tag : String) : Bool :=
  (List.range (tag.toList.length + 1)).any (versionMatchLitAt version.toList tag.toList)

/-- The tag-selection loop of `Rebuild`: the first tag whose name matches the
regex is taken; an empty selected tag is reported as not found (`tag == ""`
check after the loop). -/
def selectTag (version : String) : List String → Option String
  | [] => none
  | t :: ts =>
    if tagMatches version t then (if t == "" then none else some t)
    else selectTag version ts

/-- Embedding of `in_toto.Subject`: name plus digest set (association list, e.g.
`[("sha256", hex)]`). -/
structure Subject where
  name : String
  digest : List (String × String)
  deriving DecidableEq, Repr

/-- Embedding of `in_toto.ProvenanceBuilder`. -/
structure ProvenanceBuilder where
  id : String
  deriving DecidableEq, Repr

/-- Embedding of `in_toto.ProvenanceRecipe` (`definedInMaterial` is a nullable pointer in
Go, hence `Option`). -/
structure ProvenanceRecipe where
  rtype : String
  definedInMaterial : Option Int
  entryPoint : String
  arguments : List String
  environment : List String
  deriving DecidableEq, Repr

/-- Embedding of `in_toto.ProvenanceComplete`. -/
structure ProvenanceComplete where
  arguments : Bool
  environment : Bool
  materials : Bool
  deriving DecidableEq, Repr

/-- Embedding of `in_toto.ProvenanceMetadata`; build timestamps are modelled as `Int`
instants. -/
structure ProvenanceMetadata where
  buildStartedOn : Int
  buildFinishedOn : Int
  completeness : ProvenanceComplete
  reproducible : Bool
  deriving DecidableEq, Repr

/-- Embedding of `in_toto.ProvenanceMaterial`. -/
structure ProvenanceMaterial where
  uri : String
  digest : List (String × String)
  deriving DecidableEq, Repr

/-- Embedding of `in_toto.ProvenanceStatement` (statement header plus predicate). -/
structure ProvenanceStatement where
  stype : String
  predicateType : String
  subject : List Subject
  builder : ProvenanceBuilder
  recipe : ProvenanceRecipe
  metadata : ProvenanceMetadata
  materials : List ProvenanceMaterial
  deriving DecidableEq, Repr

/-- Embedding of `Release` from `pkg/pypi.go` (digests flattened; upload time as an `Int`
instant). -/
structure Release where
  md5 : String
  sha256 : String
  filename : String
  packageType : String
  pythonVersion : String
  url : String
  uploadTime : Int
  deriving DecidableEq, Repr

/-- Embedding of `PyPiProject` from `pkg/pypi.go`; the `releases` JSON map is an
association list with unique version keys. -/
structure PyPiProject where
  latestVersion : String
  releases : List (String × List Release)
  deriving Repr

/-- Embedding of `ArtifactSpec` from the policy source. -/
structure ArtifactSpec where
  name : String
  patterns : List String
  deriving DecidableEq, Repr

/-- Embedding of `CompletionSpec` from the policy source. -/
structure CompletionSpec where
  job : String
  step : String
  deriving DecidableEq, Repr

/-- Embedding of `GitHubActions` from the policy source. -/
structure GitHubActions where
  workflow : String
  artifacts : List ArtifactSpec
  requireSucceeded : Option CompletionSpec
  deriving DecidableEq, Repr

/-- Embedding of `MonitorOptions` from the monitor source (the embedded `GitHubActions`
fields flattened, as Go embedding does). -/
structure MonitorOptions where
  workflow : String
  artifacts : List ArtifactSpec
  requireSucceeded : Option CompletionSpec
  version : Option String
  deriving DecidableEq, Repr

/-- A GitHub Actions workflow as the monitor reads it (`github.Workflow`;
every listed workflow carries an ID). -/
structure Workflow where
  id : Nat
  name : String
  path : String
  deriving DecidableEq, Repr

/-- A workflow run (`github.WorkflowRun`); created/updated times as `Int`
instants. -/
structure WorkflowRun where
  id : Nat
  createdAt : Int
  updatedAt : Int
  headRepoURL : String
  headBranch : String
  headSHA : String
  deriving DecidableEq, Repr

/-- A step of a workflow job (`github.TaskStep`). -/
structure JobStep where
  name : String
  conclusion : String
  deriving DecidableEq, Repr

/-- A workflow job (`github.WorkflowJob`). -/
structure Job where
  name : String
  conclusion : String
  steps : List JobStep
  deriving DecidableEq, Repr

/-- A run artifact (`github.Artifact`). -/
structure Artifact where
  name : String
  expired : Bool
  archiveDownloadURL : String
  deriving DecidableEq, Repr

/-- An entry of a downloaded zip archive, with its content bytes. -/
structure ZipEntry where
  name : String
  content : List Nat
  deriving DecidableEq, Repr

/-- The external capabilities `MonitorBuild` consumes, as pure functions:
PyPI metadata for the requested package, the GitHub workflow/run/job/artifact
listings, archive download by URL (`Except` models the url-parse/HTTP/zip
failures, which abort the whole call), SHA-256 hex digesting, and
`filepath.Match` glob matching (patterns are assumed well-formed, so matching
is total). -/
structure MonitorEnv where
  project : PyPiProject
  workflows : List Workflow
  runsOf : Nat → List WorkflowRun
  jobsOf : Nat → List Job
  artifactsOf : Nat → List Artifact
  download : String → Except String (List ZipEntry)
  sha256Hex : List Nat → String
  globMatch : String → String → Bool

/-- Embedding of `r.GetCreatedAt().Time.Before(uploaded) && r.GetUpdatedAt().Time.After(uploaded)`
from the monitor source. -/
def timelyB (created updated uploaded : Int) : Bool :=
  decide (created < uploaded) && decide (updated > uploaded)

/-- Insertion into the Go map `releasedFiles` (later inserts with the same
key overwrite). -/
def insertUpload (m : List (String × Int)) (k : String) (v : Int) : List (String × Int) :=
  if m.any (fun p => p.1 == k) then m.map (fun p => if p.1 == k then (k, v) else p)
  else m ++ [(k, v)]

/-- The `releasedFiles` map: filename → upload time for the selected
version's releases. -/
def releasedFilesOf (rs : List Release) : List (String × Int) :=
  rs.foldl (fun m r => insertUpload m r.filename r.uploadTime) []

/-- Go map lookup (`for fname, uploaded := range releasedFiles { if fname ==
f.Name { ...; break } }`; keys are unique by construction). -/
def lookupUpload (m : List (String × Int)) (name : String) : Option Int :=
  (m.find? (fun p => p.1 == name)).map (fun p => p.2)

/-- Run-level timeliness: the `timely` flag computed over all values of
`releasedFiles`. -/
def runTimely (r : WorkflowRun) (files : List (String × Int)) : Bool :=
  files.any (fun p => timelyB r.createdAt r.updatedAt p.2)

/-- Entry-level timeliness re-check against the upload time of the
identically-named released file. -/
def entryTimely (r : WorkflowRun) (files : List (String × Int)) (name : String) : Bool :=
  match lookupUpload files name with
  | some u => timelyB r.createdAt r.updatedAt u
  | none => false

/-- Retention test for one archive entry: some glob pattern matches the entry
path, and the entry is timely for the identically-named released file. -/
def keepEntry (glob : String → String → Bool) (patterns : List String)
    (r : WorkflowRun) (files : List (String × Int)) (f : ZipEntry) : Bool :=
  patterns.any (fun pat => glob pat f.name) && entryTimely r files f.name

/-- Subjects produced from the retained entries of one archive. -/
def subjectsOfEntries (glob : String → String → Bool) (sha : List Nat → String)
    (patterns : List String) (r : WorkflowRun) (files : List (String × Int))
    (entries : List ZipEntry) : List Subject :=
  (entries.filter (keepEntry glob patterns r files)).map
    (fun f => { name := f.name, digest := [("sha256", sha f.content)] })

/-- The artifact-spec lookup in the monitor source.  NOTE (Go ≤1.21 loop
variable semantics): `match = &spec` stores the address of the single range
variable, so after the loop `*match` is the **last** element of
`opt.Artifacts` whenever any spec name matched, not the matching element. -/
def findSpecMatch (specs : List ArtifactSpec) (aname : String) : Option ArtifactSpec :=
  if specs.any (fun s => s.name == aname) then specs.getLast? else none

/-- The gate evaluation loop (`found`, `succeeded`): last assignment wins;
when `gate.step` is empty the job conclusion is used, and the step loop still
runs (a step literally named `""` would match). -/
def gateEval (gate : CompletionSpec) (jobs : List Job) : Bool × Bool :=
  jobs.foldl
    (fun fs j =>
      if j.name == gate.job then
        let fs1 := if gate.step == "" then (true, j.conclusion == "success") else fs
        j.steps.foldl
          (fun fs2 s => if s.name == gate.step then (true, s.conclusion == "success") else fs2)
          fs1
      else fs)
    (false, false)

/-- The artifact loop of one run: returns `(expired, subjects)`; an expired
matching artifact breaks out of the loop immediately, a download failure
aborts the whole monitor call. -/
def processArtifacts (env : MonitorEnv) (specs : List ArtifactSpec)
    (r : WorkflowRun) (files : List (String × Int)) :
    List Artifact → List Subject → Except String (Bool × List Subject)
  | [], acc => .ok (false, acc)
  | a :: rest, acc =>
    match findSpecMatch specs a.name with
    | none => processArtifacts env specs r files rest acc
    | some spec =>
      if a.expired then .ok (true, acc)
      else
        match env.download a.archiveDownloadURL with
        | .error e => .error e
        | .ok entries =>
          processArtifacts env specs r files rest
            (acc ++ subjectsOfEntries env.globMatch env.sha256Hex spec.patterns r files entries)

/-- Embedding of `sort.Slice(subjects, func(i, j) { return subjects[i].Name < subjects[j].Name })`,
modelled as a merge sort by name (sorted-by-name permutation; `sort.Slice`
is unstable, so only sortedness and multiset equality are specified). -/
def sortSubjects (l : List Subject) : List Subject :=
  l.mergeSort (fun a b => decide (a.name ≤ b.name))

/-- Outcome of processing a single workflow run inside the monitor loop. -/
inductive RunOutcome where
  | skip
  | fail (msg : String)
  | stmt (s : ProvenanceStatement)
  deriving DecidableEq, Repr

/-- The provenance statement emitted by the monitor for a satisfying run. -/
def mkMonitorStmt (wfPath : String) (r : WorkflowRun) (subjects : List Subject) :
    ProvenanceStatement :=
  { stype := "https://in-toto.io/Statement/v0.1"
    predicateType := "https://slsa.dev/provenance/v0.1"
    subject := subjects
    builder := { id := "https://attestations.github.com/actions-workflow/unknown-runner@v1" }
    recipe := { rtype := "https://slsa.dev/workflows/GitHubActionsWorkflow"
                definedInMaterial := some 0
                entryPoint := wfPath
                arguments := []
                environment := [] }
    metadata := { buildStartedOn := r.createdAt
                  buildFinishedOn := r.updatedAt
                  completeness := { arguments := false, environment := false, materials := false }
                  reproducible := false }
    materials := [{ uri := "git+" ++ r.headRepoURL ++ "@" ++ r.headBranch
                    digest := [("sha1", r.headSHA)] }] }

/-- The artifact/subject phase of one run (after timeliness and gate). -/
def processRunArtifacts (env : MonitorEnv) (opt : MonitorOptions) (wfPath : String)
    (files : List (String × Int)) (r : WorkflowRun) : RunOutcome :=
  match processArtifacts env opt.artifacts r files (env.artifactsOf r.id) [] with
  | .error e => .fail e
  | .ok (true, _) => .skip
  | .ok (false, subs) =>
    if subs.isEmpty then .skip else .stmt (mkMonitorStmt wfPath r (sortSubjects subs))

/-- The body of the run loop in `MonitorBuild`: jobs are listed first, then
the run-level timeliness check, the optional success gate, and the artifact
phase. -/
def processRun (env : MonitorEnv) (opt : MonitorOptions) (wfPath : String)
    (files : List (String × Int)) (r : WorkflowRun) : RunOutcome :=
  let js := env.jobsOf r.id
  if !(runTimely r files) then .skip
  else
    match opt.requireSucceeded with
    | some gate =>
      let fs := gateEval gate js
      if !fs.1 then .skip
      else if !fs.2 then .skip
      else processRunArtifacts env opt wfPath files r
    | none => processRunArtifacts env opt wfPath files r

/-- The run loop of `MonitorBuild`: first satisfying run wins, a failing run
aborts, exhaustion yields the not-found result `.ok none`. -/
def monitorRuns (env : MonitorEnv) (opt : MonitorOptions) (wfPath : String)
    (files : List (String × Int)) : List WorkflowRun → Except String (Option ProvenanceStatement)
  | [] => .ok none
  | r :: rest =>
    match processRun env opt wfPath files r with
    | .skip => monitorRuns env opt wfPath files rest
    | .fail e => .error e
    | .stmt s => .ok (some s)

/-- The workflow-selection loop (`if w.GetName() == opt.Workflow { wf = *w }`
with no break: the last name match wins). -/
def selectWorkflow (wfs : List Workflow) (name : String) : Option Workflow :=
  wfs.foldl (fun acc w => if w.name == name then some w else acc) none

/-- Embedding of `MonitorBuild` from the monitor source, over a `MonitorEnv`.  `.ok none`
is the Go `(nil, nil)` not-found result; `.error` the Go error return. -/
def MonitorBuild (env : MonitorEnv) (repo : String) (opt : MonitorOptions) :
    Except String (Option ProvenanceStatement) :=
  if !(repo.startsWith "github.com/") then .error "Non-github repos not yet supported"
  else
    let version :=
      match opt.version with
      | none => env.project.latestVersion
      | some v => if v == "" then env.project.latestVersion else v
    let rels := ((env.project.releases.find? (fun p => p.1 == version)).map (fun p => p.2)).getD []
    let files := releasedFilesOf rels
    if env.workflows.isEmpty then .error "No workflows found"
    else
      match selectWorkflow env.workflows opt.workflow with
      | none => .error "No workflow match"
      | some wf => monitorRuns env opt wf.path files (env.runsOf wf.id)

/-- Concrete release fixture: file `"a.txt"` uploaded at instant 5. -/
def wRelease : Release :=
  { md5 := "", sha256 := "s256", filename := "a.txt", packageType := "bdist_wheel"
    pythonVersion := "py3", url := "url", uploadTime := 5 }

/-- Concrete run fixture bracketing the upload instant 5. -/
def wRun : WorkflowRun :=
  { id := 1, createdAt := 0, updatedAt := 10, headRepoURL := "https://github.com/o/r"
    headBranch := "main", headSHA := "deadbeef" }

/-- Concrete run fixture whose window `(6, 10)` misses the upload instant 5. -/
def wLateRun : WorkflowRun :=
  { id := 2, createdAt := 6, updatedAt := 10, headRepoURL := "https://github.com/o/r"
    headBranch := "main", headSHA := "deadbeef" }

/-- Concrete monitor environment fixture. -/
def wEnv : MonitorEnv :=
  { project := { latestVersion := "1.0", releases := [("1.0", [wRelease])] }
    workflows := [{ id := 7, name := "w", path := "wf.yml" }]
    runsOf := fun _ => [wRun, wLateRun]
    jobsOf := fun _ => []
    artifactsOf := fun _ => [{ name := "art", expired := false, archiveDownloadURL := "u" }]
    download := fun _ => .ok [{ name := "a.txt", content := [1, 2] }]
    sha256Hex := fun _ => "digesthex"
    globMatch := fun pat n => pat == n }

/-- Concrete monitor options fixture. -/
def wOpt : MonitorOptions :=
  { workflow := "w", artifacts := [{ name := "art", patterns := ["a.txt"] }]
    requireSucceeded := none, version := some "1.0" }

/-- The statement the fixture run produces. -/
def wStmt : ProvenanceStatement :=
  mkMonitorStmt "wf.yml" wRun
    (sortSubjects [{ name := "a.txt", digest := [("sha256", "digesthex")] }])

/-- One step of a submitted Cloud Build (`cloudbuild.BuildStep`); the zero
value of `Entrypoint` is the empty string. -/
structure BuildStep where
  name : String
  entrypoint : String := ""
  args : List String
  deriving DecidableEq, Repr, Inhabited

/-- A submitted Cloud Build (`cloudbuild.Build`): named substitutions and
ordered steps. -/
structure CloudBuild where
  substitutions : List (String × String)
  steps : List BuildStep
  deriving DecidableEq, Repr

/-- The raw script of the build step of the submitted Cloud Build (verbatim
from the Go raw string literal, whitespace included). -/
def rebuildScript : String :=
  "\n\t\t\t\t\tapk add python3 py3-pip git &&\n    \t\t\tmkdir env &&\n    \t\t\tpython3 -m venv env &&\n    \t\t\tenv/bin/pip3 install setuptools${_SETUPTOOLS} wheel${_WHEEL} &&\n    \t\t\tcd repo/${_PACKAGEROOT} &&\n    \t\t\t/workspace/env/bin/python3.9 setup.py build bdist_wheel\n\t\t\t"

/-- The raw script of the diff step of the submitted Cloud Build (verbatim
from the Go raw string literal). -/
def diffoscopeScript : String :=
  "\n\t\t\t\t\tapk add python3 py3-pip libmagic libarchive unzip &&\n\t\t\t\t\tenv/bin/pip3 install diffoscope &&\n\t\t\t\t\tenv/bin/diffoscope ${_FILENAME} repo/${_PACKAGEROOT}/dist/${_FILENAME}\n\t\t\t"

/-- The Cloud Build request value constructed by `rebuildWheel`. -/
def mkBuild (filename url repo tag setuptoolsDep wheelDep packageRoot projectId : String) :
    CloudBuild :=
  { substitutions := [("_FILENAME", filename), ("_URL", url), ("_REPO", repo), ("_TAG", tag),
                      ("_SETUPTOOLS", setuptoolsDep), ("_WHEEL", wheelDep),
                      ("_PACKAGEROOT", packageRoot)]
    steps := [
      { name := "gcr.io/cloud-builders/git"
        args := ["clone", "--branch", "${_TAG}", "--single-branch", "https://${_REPO}", "repo"] },
      { name := "gcr.io/cloud-builders/curl"
        args := ["--output", "${_FILENAME}", "${_URL}"] },
      { name := "alpine", entrypoint := "/bin/sh", args := ["-c", rebuildScript] },
      { name := "gcr.io/" ++ projectId ++ "/transfer_metadata"
        args := ["${_FILENAME}", "repo/${_PACKAGEROOT}/dist/${_FILENAME}"] },
      { name := "alpine", entrypoint := "/bin/sh", args := ["-c", diffoscopeScript] }] }

/-- Go `strings.Split` for a multi-character separator (leftmost,
non-overlapping); fuelled so the definition is structural — the fuel used is
always at least the input length plus one, and the separator is never empty
at the call sites. -/
def splitOnListFuel (sep : List Char) : Nat → List Char → List Char → List (List Char)
  | 0, rest, acc => [acc.reverse ++ rest]
  | _ + 1, [], acc => [acc.reverse]
  | fuel + 1, c :: cs, acc =>
    if sep.isPrefixOf (c :: cs) then
      acc.reverse :: splitOnListFuel sep fuel ((c :: cs).drop sep.length) []
    else splitOnListFuel sep fuel cs (c :: acc)

/-- Go `strings.TrimSpace`. -/
def trimChars (cs : List Char) : List Char :=
  ((cs.dropWhile Char.isWhitespace).reverse.dropWhile Char.isWhitespace).reverse

/-- The individual shell commands a build-step script executes: the `&&`
-separated components of the script, whitespace-trimmed. -/
def scriptCommands (script : String) : List String :=
  (splitOnListFuel "&&".toList (script.toList.length + 1) script.toList []).map
    (fun c => (trimChars c).asString)

/-- Consume an expected literal character sequence, returning the remainder
(regex literal matching). -/
def expectChars : List Char → List Char → Option (List Char)
  | [], rest => some rest
  | _ :: _, [] => none
  | c :: cs, x :: xs => if x == c then expectChars cs xs else none

/-- Match of the regex `[^-]+-[^-]+-py(\d+\.\d+)-nspkg.pth` at the start of
`cs`, returning the capture group.  Every quantified piece is followed by a
character its class excludes, so maximal munch is the unique candidate and
the match is deterministic; the final `.` of `nspkg.pth` is an unescaped
wildcard, and the regex is unanchored at the end. -/
def nspkgAt (cs : List Char) : Option String :=
  let p1 := cs.takeWhile (fun c => !(c == '-'))
  if p1.isEmpty then none else
  match expectChars ['-'] (cs.drop p1.length) with
  | none => none
  | some r1 =>
    let p2 := r1.takeWhile (fun c => !(c == '-'))
    if p2.isEmpty then none else
    match expectChars ['-', 'p', 'y'] (r1.drop p2.length) with
    | none => none
    | some r2 =>
      let d1 := r2.takeWhile Char.isDigit
      if d1.isEmpty then none else
      match expectChars ['.'] (r2.drop d1.length) with
      | none => none
      | some r3 =>
        let d2 := r3.takeWhile Char.isDigit
        if d2.isEmpty then none else
        match expectChars ['-', 'n', 's', 'p', 'k', 'g'] (r3.drop d2.length) with
        | none => none
        | some r4 =>
          match r4 with
          | [] => none
          | _ :: r5 =>
            match expectChars ['p', 't', 'h'] r5 with
            | none => none
            | some _ => some (d1 ++ '.' :: d2).asString

/-- Embedding of `regexp.FindStringSubmatch` capture for the nspkg regex: leftmost match
wins. -/
def nspkgVersion (name : String) : Option String :=
  (List.range (name.toList.length + 1)).findSome? (fun i => nspkgAt (name.toList.drop i))

/-- Consume an expected literal byte sequence, returning the remainder. -/
def expectBytes : List Nat → List Nat → Option (List Nat)
  | [], rest => some rest
  | _ :: _, [] => none
  | b :: bs, x :: xs => if x == b then expectBytes bs xs else none

/-- Byte of an ASCII digit. -/
def isDigitByte (b : Nat) : Bool := decide (48 ≤ b) && decide (b ≤ 57)

/-- Match of the regex `Generator: bdist_wheel \(([\.\d]*)\)` at the start of
`bs`, returning the capture: the literal prefix, then a maximal run of the
class `[\.\d]` (which excludes the following literal `)`, so the match is
deterministic), then `)`. -/
def genAt (bs : List Nat) : Option (List Nat) :=
  match expectBytes (strBytes "Generator: bdist_wheel (") bs with
  | none => none
  | some r =>
    let cap := r.takeWhile (fun b => b == 46 || isDigitByte b)
    match expectBytes [41] (r.drop cap.length) with
    | none => none
    | some _ => some cap

/-- Embedding of `re.FindSubmatch(wheelInfo)` capture for the Generator regex: leftmost
match wins; `none` models the nil result whose `[1]` index panics. -/
def findGenerator (bs : List Nat) : Option (List Nat) :=
  (List.range (bs.length + 1)).findSome? (fun i => genAt (bs.drop i))

/-- String from ASCII bytes. -/
def asciiOfBytes (bs : List Nat) : String := (bs.map Char.ofNat).asString

/-- Go `bytes.Contains`: the needle occurs as a contiguous sub-sequence. -/
def containsBytes (needle : List Nat) : List Nat → Bool
  | [] => needle.isEmpty
  | x :: xs => needle.isPrefixOf (x :: xs) || containsBytes needle xs

/-- Go `strings.HasSuffix`. -/
def hasSuffixStr (s pat : String) : Bool := (pat.toList).isSuffixOf s.toList

/-- State of the wheel-inspection loop in `rebuildWheel` (`metadata`,
`wheelInfo`, `python`). -/
structure WheelInspection where
  metadata : List Nat
  wheelInfo : List Nat
  python : String
  deriving DecidableEq, Repr

/-- The inspection loop over the downloaded reference wheel's zip entries:
later `METADATA`/`WHEEL` entries overwrite earlier ones; an `-nspkg.pth`
entry whose embedded interpreter version is not `3.9` aborts with
`Unsupported python version` (the `python` variable starts at and, on any
non-aborting path, remains `"python3.9"`). -/
def inspectWheel (entries : List ZipEntry) : Except String WheelInspection :=
  entries.foldlM
    (fun insp f =>
      if hasSuffixStr f.name ".dist-info/METADATA" then .ok { insp with metadata := f.content }
      else if hasSuffixStr f.name ".dist-info/WHEEL" then .ok { insp with wheelInfo := f.content }
      else if hasSuffixStr f.name "-nspkg.pth" then
        match nspkgVersion f.name with
        | none => .ok insp
        | some v =>
          if v ≠ "3.9" then .error "Unsupported python version"
          else .ok { insp with python := "python" ++ v }
      else .ok insp)
    { metadata := [], wheelInfo := [], python := "python3.9" }

/-- The external capabilities `rebuildWheel` consumes: the parsed zip entries
of the downloaded reference wheel, Cloud Build submission-and-polling
(`none` = operation completed without error, `some e` = the operation's
error text), the configured project id, the commit digest GitHub reports for
the resolved tag, and the wall-clock start/end instants. -/
structure RebuildEnv where
  origWhl : List ZipEntry
  runBuild : CloudBuild → Option String
  projectId : String
  commitSha : String
  startTime : Int
  endTime : Int

/-- Result of `rebuildWheel`: a statement, a returned error, or a
process-terminating failure (`log.Fatal` / runtime panic). -/
inductive RebuildResult where
  | ok (s : ProvenanceStatement)
  | err (msg : String)
  | crash (msg : String)
  deriving DecidableEq, Repr

/-- The provenance statement assembled by `rebuildWheel` on success. -/
def mkRebuildStmt (wheel : Release)
    (repo tag packageRoot python setuptoolsDep wheelDep commitSha : String)
    (start finish : Int) : ProvenanceStatement :=
  { stype := "https://in-toto.io/Statement/v0.1"
    predicateType := "https://slsa.dev/provenance/v0.1"
    subject := [{ name := wheel.filename, digest := [("sha256", wheel.sha256)] }]
    builder := { id := "https://demo.slsa.dev/rebuilder@v1" }
    recipe := { rtype := "https://slsa.github.com/workflow@v1"
                definedInMaterial := none
                entryPoint := packageRoot ++ "/setup.py"
                arguments :=
                  ["git clone --branch=" ++ tag ++ " --single-branch " ++ repo,
                   python ++ " -m venv /tmp/env",
                   "/tmp/env/bin/pip3 install setuptools" ++ setuptoolsDep ++ " wheel" ++ wheelDep,
                   "cd " ++ packageRoot,
                   "/tmp/env/bin/" ++ python ++ " setup.py build bdist_wheel"]
                environment := [] }
    metadata := { buildStartedOn := start
                  buildFinishedOn := finish
                  completeness := { arguments := true, environment := false, materials := false }
                  reproducible := false }
    materials := [{ uri := "git+https://" ++ repo ++ "@" ++ tag
                    digest := [("sha1", commitSha)] }] }

/-- Embedding of `rebuildWheel` from the rebuilder source, over a `RebuildEnv`: inspect
the reference wheel, infer the pinned tool versions (`wheel` from the WHEEL
`Generator:` line — a missing line panics on the nil-submatch index;
`setuptools` 58.3.0 iff the METADATA contains `License-File`, else 56.2.0),
submit the Cloud Build, and on success assemble the statement. -/
def rebuildWheel (env : RebuildEnv) (wheel : Release) (_pkg repo tag packageRoot : String) :
    RebuildResult :=
  match inspectWheel env.origWhl with
  | .error e => .err e
  | .ok insp =>
    if insp.metadata.isEmpty then .crash "No METADATA found"
    else
      match findGenerator insp.wheelInfo with
      | none => .crash "runtime error: index out of range"
      | some gen =>
        let wheelDep := "==" ++ asciiOfBytes gen
        let setuptoolsDep :=
          if containsBytes (strBytes "License-File") insp.metadata then "==58.3.0" else "==56.2.0"
        match env.runBuild
            (mkBuild wheel.filename wheel.url repo tag setuptoolsDep wheelDep
              packageRoot env.projectId) with
        | some errTxt => .err errTxt
        | none =>
          .ok (mkRebuildStmt wheel repo tag packageRoot insp.python setuptoolsDep wheelDep
            env.commitSha env.startTime env.endTime)

/-- Concrete reference-wheel release fixture with the index-reported digest
`"abc123"`. -/
def rWheel : Release :=
  { md5 := "", sha256 := "abc123", filename := "demo-1.0-py3-none-any.whl"
    packageType := "bdist_wheel", pythonVersion := "py3"
    url := "https://files/demo.whl", uploadTime := 3 }

/-- Concrete rebuild environment fixture: a reference wheel whose WHEEL file
pins `bdist_wheel (0.37.0)` and whose METADATA lacks `License-File`, and a
build operation that completes without error. -/
def rEnv : RebuildEnv :=
  { origWhl := [
      { name := "demo-1.0.dist-info/METADATA", content := strBytes "Name: demo" },
      { name := "demo-1.0.dist-info/WHEEL", content := strBytes "Generator: bdist_wheel (0.37.0)" }]
    runBuild := fun _ => none
    projectId := "proj"
    commitSha := "cafe"
    startTime := 0
    endTime := 1 }

/-- The statement the rebuild fixture produces. -/
def rStmt : ProvenanceStatement :=
  mkRebuildStmt rWheel "github.com/o/r" "1.0" "." "python3.9" "==56.2.0" "==0.37.0" "cafe" 0 1

/-- Decoded JWT claims as used by `authenticatedUser` (`jwt.MapClaims`): the
`email` and `sub` entries, `none` when absent or not a string. -/
structure JwtClaims where
  email : Option String
  sub : Option String
  deriving DecidableEq, Repr

/-- Result of `authenticatedUser`: a returned error, the extracted identity,
or a runtime panic from the unchecked type assertions
`claims["email"].(string)` / `claims["sub"].(string)`. -/
inductive AuthResult where
  | err (msg : String)
  | ok (email : String) (userID : String)
  | crash
  deriving DecidableEq, Repr

/-- Go `strings.TrimPrefix(s, "bearer ")` (case-sensitive). -/
def trimBearer (s : String) : String :=
  if ("bearer ".toList).isPrefixOf s.toList then (s.toList.drop 7).asString else s

/-- Embedding of `authenticatedUser` from the upload source: trim the `"bearer "` scheme
from the Authorization header value, fail on an empty result, decode the JWT
without signature verification (`decodeJwt` abstracts
`jwt.Parser.ParseUnverified`), then type-assert the `email` and `sub`
claims — a missing or non-string claim panics. -/
def authenticatedUser (decodeJwt : String → Except String JwtClaims)
    (authorization : String) : AuthResult :=
  let assertion := trimBearer authorization
  if assertion.length == 0 then .err "No auth header found"
  else
    match decodeJwt assertion with
    | .error e => .err e
    | .ok claims =>
      match claims.email, claims.sub with
      | some e, some su => .ok e su
      | _, _ => .crash

/-- Embedding of `Rebuilder` sub-policy from the policy source. -/
structure RebuilderPolicy where
  packageRoot : String
  deriving DecidableEq, Repr

/-- Embedding of `ProvenanceUpload` sub-policy from the policy source. -/
structure ProvenanceUpload where
  authorizedBuilders : List String
  deriving DecidableEq, Repr

/-- Embedding of `Policy` from the policy source; `digest`, `scope` and `package` are
filled in by the fetch functions, never by YAML. -/
structure Policy where
  repo : String
  buildMonitor : Option GitHubActions
  rebuilder : Option RebuilderPolicy
  provenanceUpload : Option ProvenanceUpload
  digest : String
  scope : String
  package : String
  deriving DecidableEq, Repr

/-- Observable outcome of `HandleUpload` up to and including the
authorization decision (the later canonicalize/sign/store steps are outside
the upload-authorization claim). -/
inductive UploadOutcome where
  | unauthenticated
  | policyFetchError
  | badPolicy
  | forbidden
  | authorized (email : String)
  | crash
  deriving DecidableEq, Repr

/-- Embedding of `HandleUpload` from the upload source, up to the authorization decision:
`.unauthenticated` is the 403 "Authorization parse failed" branch,
`.policyFetchError` the 500, `.badPolicy` the 400 for a policy without
`provenance_upload`, `.forbidden` the 403 "Builder not authorized" branch,
and `.authorized` the fall-through to signing/storage; `policy` is the
`fetchPolicy(scope, pkg, "main")` result. -/
def handleUpload (decodeJwt : String → Except String JwtClaims)
    (policy : Except String Policy) (authorization : String) : UploadOutcome :=
  match authenticatedUser decodeJwt authorization with
  | .crash => .crash
  | .err _ => .unauthenticated
  | .ok email _ =>
    match policy with
    | .error _ => .policyFetchError
    | .ok p =>
      match p.provenanceUpload with
      | none => .badPolicy
      | some pu =>
        if pu.authorizedBuilders.any (fun a => a == email) then .authorized email
        else .forbidden

/-- JWT decode fixture: `"good"` decodes to a full claim set for
`builder@example.com`, `"noemail"` decodes to claims lacking an email,
`"other"` decodes to an identity outside the allow-list, anything else fails
to decode. -/
def uDecode : String → Except String JwtClaims := fun tok =>
  if tok == "good" then .ok { email := some "builder@example.com", sub := some "1" }
  else if tok == "noemail" then .ok { email := none, sub := some "1" }
  else if tok == "other" then .ok { email := some "other@example.com", sub := some "2" }
  else .error "token contains an invalid number of segments"

/-- Policy fixture authorizing exactly `builder@example.com`. -/
def uPolicy : Policy :=
  { repo := "github.com/o/r", buildMonitor := none, rebuilder := none
    provenanceUpload := some { authorizedBuilders := ["builder@example.com"] }
    digest := "d", scope := "pypi", package := "demo" }

/-- A node of the policy repository's file tree.  Paths are modelled as
segment lists: the default root directory `"."` is the empty list, matching
`filepath.Join`'s cleaning of `./x` to `x`, and `strings.Split(path, "/")`
recovers exactly the segments. -/
inductive FsNode where
  | file (name : String) (content : List Nat)
  | dir (name : String) (children : List FsNode)
  deriving Repr

/-- Name of a tree node. -/
def FsNode.nodeName : FsNode → String
  | .file n _ => n
  | .dir n _ => n

/-- Directory test of a tree node (`f.IsDir()`). -/
def FsNode.isDirNode : FsNode → Bool
  | .file _ _ => false
  | .dir _ _ => true

/-- Embedding of `gitfs.ReadDir(dir)` over the tree. -/
def readDirFs (roots : List FsNode) : List String → Option (List FsNode)
  | [] => some roots
  | seg :: rest =>
    match roots.find? (fun n => n.nodeName == seg) with
    | some (.dir _ cs) => readDirFs cs rest
    | _ => none

/-- Embedding of `gitfs.Open` + `ReadAll` over the tree. -/
def readFileFs (roots : List FsNode) : List String → Option (List Nat)
  | [] => none
  | [f] =>
    match roots.find? (fun n => n.nodeName == f) with
    | some (.file _ c) => some c
    | _ => none
  | seg :: rest =>
    match roots.find? (fun n => n.nodeName == seg) with
    | some (.dir _ cs) => readFileFs cs rest
    | _ => none

/-- The directory-stack walk of `fetchPolicies`: pop the last directory,
read it, push its subdirectories, and record the path of every `policy.yaml`
file.  Fuelled to keep the recursion structural (the fuel supplied is always
sufficient); `none` models the Go error return on a failed `ReadDir` (or
exhausted fuel). -/
def walkPolicies (roots : List FsNode) :
    Nat → List (List String) → List (List String) → Option (List (List String))
  | 0, _, _ => none
  | fuel + 1, dirs, acc =>
    match dirs.getLast? with
    | none => some acc
    | some d =>
      match readDirFs roots d with
      | none => none
      | some entries =>
        walkPolicies roots fuel
          (dirs.dropLast ++
            (entries.filter (fun n => n.isDirNode)).map (fun n => d ++ [n.nodeName]))
          (acc ++
            (entries.filter (fun n => !n.isDirNode && n.nodeName == "policy.yaml")).map
              (fun _ => d ++ ["policy.yaml"]))

/-- One parsed policy from a walked path.  YAML parsing is abstracted by
`parse`; exactly as in the Go code, the parsed document's `digest`, `scope`
and `package` are then overwritten with the SHA-256 of the raw bytes
(`sha` abstracts the digest) and the first two `/`-segments of the path. -/
def policyFromPath (parse : List Nat → Policy) (sha : List Nat → String)
    (roots : List FsNode) (path : List String) : Option Policy :=
  match readFileFs roots path with
  | none => none
  | some content =>
    let np := parse content
    some { np with digest := sha content
                   scope := path.getD 0 ""
                   package := path.getD 1 "" }

/-- Embedding of `fetchPolicies(ref)` from the policy source, over the cloned tree
`roots` with configured policy directory `dir` (as segments; `[]` is the
default `"."`). -/
def fetchPolicies (parse : List Nat → Policy) (sha : List Nat → String)
    (roots : List FsNode) (dir : List String) (fuel : Nat) : Option (List Policy) :=
  match walkPolicies roots fuel [dir] [] with
  | none => none
  | some paths => paths.mapM (policyFromPath parse sha roots)

/-- YAML-parse fixture: every document parses to the empty policy. -/
def pParse : List Nat → Policy := fun _ =>
  { repo := "", buildMonitor := none, rebuilder := none, provenanceUpload := none
    digest := "", scope := "", package := "" }

/-- Digest fixture. -/
def pSha : List Nat → String := fun _ => "sha"

theorem base64Encode_length_ge (l : List Nat) : l.length ≤ (base64Encode l).length := by
  match l with
  | [] => simp [base64Encode]
  | [_] => simp [base64Encode]
  | [_, _] => simp [base64Encode]
  | _ :: _ :: _ :: rest =>
    have ih := base64Encode_length_ge rest
    simp only [base64Encode, List.length_cons]
    omega

theorem pae_ne_payload (t : String) (P : List Nat) : pae t (base64Encode P) ≠ P := by
  intro h
  have hlen : (pae t (base64Encode P)).length = P.length := congrArg List.length h
  have hge := base64Encode_length_ge P
  have h7 : (strBytes "DSSEv1 ").length = 7 := rfl
  simp only [pae, List.length_append] at hlen
  omega

/-- C1: for every payload byte string `P`, the envelope built by `NewDSSE` has
its signature computed over the PAE bytes
`"DSSEv1 <len(payloadType)> <payloadType> <len(base64(P))> <base64(P)>"`
(and never over the raw payload `P`, which the PAE bytes can never equal);
the envelope's payload field is `base64(P)` and its payload type is the fixed
in-toto type string.  The last conjunct is the spec's golden vector for
payload `"abc"`. -/
theorem newDSSE_signs_pae (sign : List Nat → List Nat) (key : String) (P : List Nat) :
    (NewDSSE sign key P).payloadType = inTotoPayloadType ∧
    (NewDSSE sign key P).payload = base64Encode P ∧
    (NewDSSE sign key P).signatures =
      [{ keyid := "https://cloudkms.googleapis.com/" ++ key
         sig := base64Encode (sign (pae inTotoPayloadType (base64Encode P))) }] ∧
    pae inTotoPayloadType (base64Encode P) ≠ P ∧
    pae inTotoPayloadType (base64Encode (strBytes "abc"))
      = strBytes "DSSEv1 28 application/vnd.in-toto+json 4 YWJj" :=
  ⟨rfl, rfl, rfl, pae_ne_payload _ P, by decide⟩

/-- C5 counterexample: the claim's decision procedure (platform tag = the
whole last dash-segment) classifies `"pkg-1.0-py3-none-any.win32.whl"` as
unknown (the segment `"any.win32"` matches no case), but the code truncates
the segment at its first `.` and returns wheel-any. -/
theorem classify_counterexample :
    getReleaseType "pkg-1.0-py3-none-any.win32.whl" = ReleaseType.wheelAny ∧
    classifySpec "pkg-1.0-py3-none-any.win32.whl" = ReleaseType.unknownReleaseType ∧
    ReleaseType.wheelAny ≠ ReleaseType.unknownReleaseType :=
  ⟨by decide, by decide, by decide⟩

/-- C5 (amended): `getReleaseType` is a total pure function implementing the
claimed decision procedure, amended so that the platform tag is the first
dot-component of the last `-`-separated segment; the claim's three concrete
examples hold as stated. -/
theorem getReleaseType_matches_spec (f : String) :
    getReleaseType "pkg-1.0-py3-none-any.whl" = ReleaseType.wheelAny ∧
    getReleaseType "pkg-1.0.tar.gz" = ReleaseType.sourceGztar ∧
    getReleaseType "pkg.unknown" = ReleaseType.unknownReleaseType ∧
    getReleaseType f = classifyAmended f :=
  ⟨by decide, by decide, by decide, rfl⟩

theorem tagMatches_iff (version tag : String) :
    tagMatches version tag = true ↔
    ∃ p m s : List Char, tag.toList = p ++ m ++ s
      ∧ (p = [] ∨ ∃ c, p.getLast? = some c ∧ c.isDigit = false)
      ∧ m.length = version.toList.length
      ∧ (∀ q ∈ version.toList.zip m, q.1 = '.' ∨ q.1 = q.2)
      ∧ (s = [] ∨ ∃ c, s.head? = some c ∧ markerChars.contains c = false) := by
  constructor
  · intro h
    rcases List.any_eq_true.mp h with ⟨i, _, hm⟩
    simp only [versionMatchAt, Bool.and_eq_true, Bool.or_eq_true, Bool.not_eq_true'] at hm
    obtain ⟨⟨⟨h1, h2⟩, h3⟩, h4⟩ := hm
    refine ⟨tag.toList.take i, (tag.toList.drop i).take version.toList.length,
      (tag.toList.drop i).drop version.toList.length, ?_, ?_, ?_, ?_, ?_⟩
    · rw [List.append_assoc, List.take_append_drop, List.take_append_drop]
    · rcases h1 with h1 | h1
      · exact Or.inl (List.isEmpty_iff.mp h1)
      · by_cases hp : tag.toList.take i = []
        · exact Or.inl hp
        · obtain ⟨c, hc⟩ : ∃ c, (tag.toList.take i).getLast? = some c := by
            cases hgl : (tag.toList.take i).getLast? with
            | none => exact absurd (List.getLast?_eq_none_iff.mp hgl) hp
            | some c => exact ⟨c, rfl⟩
          refine Or.inr ⟨c, hc, ?_⟩
          rw [List.getLastD_eq_getLast?, hc] at h1
          exact h1
    · exact eq_of_beq h2
    · intro q hq
      have := List.all_eq_true.mp h3 q hq
      rcases Bool.or_eq_true _ _ |>.mp this with hc | hc
      · exact Or.inl (eq_of_beq hc)
      · exact Or.inr (eq_of_beq hc)
    · rcases h4 with h4 | h4
      · exact Or.inl (List.isEmpty_iff.mp h4)
      · by_cases hs : (tag.toList.drop i).drop version.toList.length = []
        · exact Or.inl hs
        · obtain ⟨c, hc⟩ : ∃ c, ((tag.toList.drop i).drop version.toList.length).head? = some c := by
            cases hgl : ((tag.toList.drop i).drop version.toList.length).head? with
            | none => exact absurd (List.head?_eq_none_iff.mp hgl) hs
            | some c => exact ⟨c, rfl⟩
          refine Or.inr ⟨c, hc, ?_⟩
          rw [List.headD_eq_head?_getD, hc] at h4
          exact h4
  · rintro ⟨p, m, s, ht, hp, hm, hzip, hs⟩
    apply List.any_eq_true.mpr
    refine ⟨p.length, ?_, ?_⟩
    · have : tag.toList.length = p.length + (m.length + s.length) := by
        rw [ht]; simp [List.length_append]
      simp only [List.mem_range]
      omega
    · have hpre : tag.toList.take p.length = p := by
        rw [ht, List.append_assoc, List.take_left]
      have hrest : tag.toList.drop p.length = m ++ s := by
        rw [ht, List.append_assoc, List.drop_left]
      have hmid : (tag.toList.drop p.length).take version.toList.length = m := by
        rw [hrest, ← hm, List.take_left]
      have hsuf : (tag.toList.drop p.length).drop version.toList.length = s := by
        rw [hrest, ← hm, List.drop_left]
      simp only [versionMatchAt, Bool.and_eq_true, Bool.or_eq_true, Bool.not_eq_true',
        hpre, hmid, hsuf]
      refine ⟨⟨⟨?_, ?_⟩, ?_⟩, ?_⟩
      · rcases hp with hp | ⟨c, hc, hcd⟩
        · exact Or.inl (by simp [hp])
        · refine Or.inr ?_
          simp only [List.getLastD_eq_getLast?, hc, Option.getD_some]
          exact hcd
      · exact beq_iff_eq.mpr hm
      · apply List.all_eq_true.mpr
        intro q hq
        rcases hzip q hq with hc | hc
        · exact Bool.or_eq_true _ _ |>.mpr (Or.inl (beq_iff_eq.mpr hc))
        · exact Bool.or_eq_true _ _ |>.mpr (Or.inr (beq_iff_eq.mpr hc))
      · rcases hs with hs | ⟨c, hc, hcm⟩
        · exact Or.inl (by simp [hs])
        · refine Or.inr ?_
          simp only [List.headD_eq_head?_getD, hc, Option.getD_some]
          exact hcm

/-- C6 counterexample: for version `"3.3"` the code's tag regex (built by
interpolating the version into the pattern unescaped) accepts the tag
`"3x3"`, which contains no literal occurrence of `"3.3"`, because the `.` in
the version acts as a regex wildcard; the claim's pattern with a version
literal rejects it, and the selection loop would select `"3x3"`. -/
theorem tagMatches_wildcard_counterexample :
    tagMatches "3.3" "3x3" = true ∧
    tagMatchesSpec "3.3" "3x3" = false ∧
    selectTag "3.3" ["3x3"] = some "3x3" :=
  ⟨by decide, by decide, by decide⟩

/-- C6 (amended): for every version string containing no regex metacharacter
other than `.` (in particular every version made of digits and dots — the
version is interpolated into the pattern unescaped, so other metacharacters
would change the compiled pattern, and invalid ones panic `MustCompile`),
the tag selection accepts exactly the tags decomposable as "optional prefix
ending in a non-digit, then the version pattern — each version character
matched literally except `.`, which matches any single character — then
either end-of-string or a suffix whose first character is not a
pre-release/dev/post marker character"; for version `"3.3"` it matches
`"3.3"` and `"v3.3"` and rejects `"3.3.1"`, `"3.3a1"` and `"3.3.dev0"`; and
the first matching tag in listing order is selected. -/
theorem rebuild_tag_selection_spec :
    (∀ version tag : String, (∀ c ∈ version.toList, c ∉ regexMetaChars) →
      (tagMatches version tag = true ↔
      ∃ p m s : List Char, tag.toList = p ++ m ++ s
        ∧ (p = [] ∨ ∃ c, p.getLast? = some c ∧ c.isDigit = false)
        ∧ m.length = version.toList.length
        ∧ (∀ q ∈ version.toList.zip m, q.1 = '.' ∨ q.1 = q.2)
        ∧ (s = [] ∨ ∃ c, s.head? = some c ∧ markerChars.contains c = false))) ∧
    (tagMatches "3.3" "3.3" = true ∧ tagMatches "3.3" "v3.3" = true ∧
     tagMatches "3.3" "3.3.1" = false ∧ tagMatches "3.3" "3.3a1" = false ∧
     tagMatches "3.3" "3.3.dev0" = false) ∧
    (∀ (v t : String) (l₁ l₂ : List String),
      (∀ u ∈ l₁, tagMatches v u = false) → tagMatches v t = true → t ≠ "" →
      selectTag v (l₁ ++ t :: l₂) = some t) := by
  refine ⟨fun version tag _ => tagMatches_iff version tag,
    ⟨by decide, by decide, by decide, by decide, by decide⟩, ?_⟩
  intro v t l₁ l₂ hall ht hne
  induction l₁ with
  | nil =>
    have : (t == "") = false := beq_eq_false_iff_ne.mpr hne
    simp [selectTag, ht, this]
  | cons u rest ih =>
    have hu : tagMatches v u = false := hall u (List.mem_cons_self u rest)
    simp only [List.cons_append, selectTag, hu, Bool.false_eq_true, if_false]
    exact ih (fun x hx => hall x (List.mem_cons_of_mem u hx))

/-- C6 witness: with a non-matching tag listed first, the first matching tag
`"v3.3"` is selected; and the characterization conjunct instantiated at the
metacharacter-free version `"3.3"` and tag `"v3.3"` yields a concrete
decomposition. -/
theorem rebuild_tag_selection_witness :
    selectTag "3.3" (["3.3.1"] ++ "v3.3" :: []) = some "v3.3" ∧
    ∃ p m s : List Char, "v3.3".toList = p ++ m ++ s
      ∧ (p = [] ∨ ∃ c, p.getLast? = some c ∧ c.isDigit = false)
      ∧ m.length = "3.3".toList.length
      ∧ (∀ q ∈ "3.3".toList.zip m, q.1 = '.' ∨ q.1 = q.2)
      ∧ (s = [] ∨ ∃ c, s.head? = some c ∧ markerChars.contains c = false) :=
  ⟨rebuild_tag_selection_spec.2.2 "3.3" "v3.3" ["3.3.1"] []
      (by intro u hu; simp at hu; subst hu; decide) (by decide) (by decide),
    (rebuild_tag_selection_spec.1 "3.3" "v3.3" (by decide)).mp (by decide)⟩

theorem timelyB_iff (c u x : Int) : timelyB c u x = true ↔ c < x ∧ x < u := by
  simp [timelyB]

theorem processRunArtifacts_stmt_inv {env : MonitorEnv} {opt : MonitorOptions}
    {wfPath : String} {files : List (String × Int)} {r : WorkflowRun} {s : ProvenanceStatement}
    (h : processRunArtifacts env opt wfPath files r = .stmt s) :
    ∃ subs, processArtifacts env opt.artifacts r files (env.artifactsOf r.id) [] = .ok (false, subs)
      ∧ subs ≠ [] ∧ s = mkMonitorStmt wfPath r (sortSubjects subs) := by
  unfold processRunArtifacts at h
  split at h
  · exact absurd h (by simp)
  · exact absurd h (by simp)
  next b subs heq =>
    split at h
    · exact absurd h (by simp)
    next hne =>
      cases h
      exact ⟨subs, heq, fun hnil => hne (by simp [hnil]), rfl⟩

theorem processRun_stmt_inv {env : MonitorEnv} {opt : MonitorOptions}
    {wfPath : String} {files : List (String × Int)} {r : WorkflowRun} {s : ProvenanceStatement}
    (h : processRun env opt wfPath files r = .stmt s) :
    runTimely r files = true ∧
    (∀ gate, opt.requireSucceeded = some gate → gateEval gate (env.jobsOf r.id) = (true, true)) ∧
    ∃ subs, processArtifacts env opt.artifacts r files (env.artifactsOf r.id) [] = .ok (false, subs)
      ∧ subs ≠ [] ∧ s = mkMonitorStmt wfPath r (sortSubjects subs) := by
  unfold processRun at h
  cases hrt : runTimely r files with
  | false => rw [hrt] at h; simp at h
  | true =>
    rw [hrt] at h
    simp only [Bool.not_true, Bool.false_eq_true, if_false] at h
    refine ⟨rfl, ?_⟩
    cases hgate : opt.requireSucceeded with
    | none =>
      rw [hgate] at h
      simp only [] at h
      refine ⟨fun g hg => ?_, processRunArtifacts_stmt_inv h⟩
      exact Option.noConfusion hg
    | some gate =>
      rw [hgate] at h
      simp only [] at h
      rcases hge : gateEval gate (env.jobsOf r.id) with ⟨b1, b2⟩
      rw [hge] at h
      cases b1 with
      | false => simp at h
      | true =>
        cases b2 with
        | false => simp at h
        | true =>
          simp only [Bool.not_true, Bool.false_eq_true, if_false] at h
          refine ⟨?_, processRunArtifacts_stmt_inv h⟩
          intro g hg
          cases hg
          exact hge

/-- C2: the Build Monitor treats an upload timestamp U as timely for a run
iff `run.created < U < run.updated` with strict inequality on both sides
(boundary equality is not timely); a run is a candidate only if some release
upload timestamp is timely (otherwise its loop body skips it); and every
archive entry retained by the filter passed the timeliness re-check against
the upload time of the identically-named release file. -/
theorem monitor_timeliness :
    (∀ created updated uploaded : Int,
        timelyB created updated uploaded = true ↔ created < uploaded ∧ uploaded < updated) ∧
    (∀ created updated : Int,
        timelyB created updated created = false ∧ timelyB created updated updated = false) ∧
    (∀ (r : WorkflowRun) (files : List (String × Int)),
        runTimely r files = true ↔ ∃ p ∈ files, r.createdAt < p.2 ∧ p.2 < r.updatedAt) ∧
    (∀ (env : MonitorEnv) (opt : MonitorOptions) (wfPath : String)
        (files : List (String × Int)) (r : WorkflowRun), runTimely r files = false →
        processRun env opt wfPath files r = RunOutcome.skip) ∧
    (∀ (glob : String → String → Bool) (patterns : List String) (r : WorkflowRun)
        (files : List (String × Int)) (f : ZipEntry),
        keepEntry glob patterns r files f = true →
        ∃ u, lookupUpload files f.name = some u ∧ r.createdAt < u ∧ u < r.updatedAt) := by
  refine ⟨timelyB_iff, ?_, ?_, ?_, ?_⟩
  · intro c u
    constructor
    · exact Bool.eq_false_iff.mpr
        (fun hb => absurd ((timelyB_iff c u c).mp hb).1 (lt_irrefl c))
    · exact Bool.eq_false_iff.mpr
        (fun hb => absurd ((timelyB_iff c u u).mp hb).2 (lt_irrefl u))
  · intro r files
    simp [runTimely, List.any_eq_true, timelyB_iff]
  · intro env opt wfPath files r h
    simp [processRun, h]
  · intro glob patterns r files f h
    unfold keepEntry at h
    rw [Bool.and_eq_true] at h
    have h2 : entryTimely r files f.name = true := h.2
    unfold entryTimely at h2
    cases hl : lookupUpload files f.name with
    | none => simp only [hl] at h2; cases h2
    | some u =>
      simp only [hl] at h2
      exact ⟨u, rfl, (timelyB_iff _ _ _).mp h2⟩

/-- C2 witness: the fixture run with window `(6, 10)` and single upload
instant 5 is not timely, so the run loop body skips it. -/
theorem monitor_timeliness_witness :
    processRun wEnv wOpt "wf.yml" (releasedFilesOf [wRelease]) wLateRun = RunOutcome.skip :=
  monitor_timeliness.2.2.2.1 wEnv wOpt "wf.yml" (releasedFilesOf [wRelease]) wLateRun (by decide)

/-- C3: the monitor's run loop returns the provenance statement of the first
run satisfying all constraints (timeliness, optional success gate, no expired
artifact, non-empty surviving subjects), examining no further runs; a skipped
run defers to the remaining runs; when every run is skipped the result is the
not-found value `Except.ok none`, which is distinct from every error
result. -/
theorem monitor_first_satisfying_run :
    (∀ (env : MonitorEnv) (opt : MonitorOptions) (wfPath : String)
        (files : List (String × Int)) (r : WorkflowRun) (rest : List WorkflowRun)
        (s : ProvenanceStatement), processRun env opt wfPath files r = RunOutcome.stmt s →
        monitorRuns env opt wfPath files (r :: rest) = .ok (some s)) ∧
    (∀ (env : MonitorEnv) (opt : MonitorOptions) (wfPath : String)
        (files : List (String × Int)) (r : WorkflowRun) (rest : List WorkflowRun),
        processRun env opt wfPath files r = RunOutcome.skip →
        monitorRuns env opt wfPath files (r :: rest) = monitorRuns env opt wfPath files rest) ∧
    (∀ (env : MonitorEnv) (opt : MonitorOptions) (wfPath : String)
        (files : List (String × Int)) (runs : List WorkflowRun),
        (∀ r ∈ runs, processRun env opt wfPath files r = RunOutcome.skip) →
        monitorRuns env opt wfPath files runs = .ok none) ∧
    (∀ (env : MonitorEnv) (opt : MonitorOptions) (wfPath : String)
        (files : List (String × Int)) (r : WorkflowRun) (s : ProvenanceStatement),
        processRun env opt wfPath files r = RunOutcome.stmt s →
        runTimely r files = true ∧
        (∀ gate, opt.requireSucceeded = some gate →
          gateEval gate (env.jobsOf r.id) = (true, true)) ∧
        ∃ subs, processArtifacts env opt.artifacts r files (env.artifactsOf r.id) []
            = .ok (false, subs) ∧ subs ≠ [] ∧ s = mkMonitorStmt wfPath r (sortSubjects subs)) ∧
    (∀ e : String, (Except.ok none : Except String (Option ProvenanceStatement)) ≠ .error e) := by
  refine ⟨?_, ?_, ?_, ?_, ?_⟩
  · intro env opt wfPath files r rest s h
    simp [monitorRuns, h]
  · intro env opt wfPath files r rest h
    simp [monitorRuns, h]
  · intro env opt wfPath files runs hall
    induction runs with
    | nil => rfl
    | cons r rest ih =>
      have hr := hall r (List.mem_cons_self r rest)
      simp only [monitorRuns, hr]
      exact ih (fun x hx => hall x (List.mem_cons_of_mem r hx))
  · intro env opt wfPath files r s h
    exact processRun_stmt_inv h
  · intro e h
    cases h

/-- C3 witness: with the fixture environment, the first run satisfies all
constraints and its statement is returned immediately even though a second
run follows. -/
theorem monitor_first_satisfying_run_witness :
    monitorRuns wEnv wOpt "wf.yml" (releasedFilesOf [wRelease]) [wRun, wLateRun]
      = .ok (some wStmt) :=
  monitor_first_satisfying_run.1 wEnv wOpt "wf.yml" (releasedFilesOf [wRelease])
    wRun [wLateRun] wStmt rfl

theorem rebuildWheel_ok_inv {env : RebuildEnv} {wheel : Release}
    {pkg repo tag packageRoot : String} {s : ProvenanceStatement}
    (h : rebuildWheel env wheel pkg repo tag packageRoot = .ok s) :
    ∃ insp gen, inspectWheel env.origWhl = .ok insp ∧
      insp.metadata.isEmpty = false ∧
      findGenerator insp.wheelInfo = some gen ∧
      env.runBuild
        (mkBuild wheel.filename wheel.url repo tag
          (if containsBytes (strBytes "License-File") insp.metadata then "==58.3.0" else "==56.2.0")
          ("==" ++ asciiOfBytes gen) packageRoot env.projectId) = none ∧
      s = mkRebuildStmt wheel repo tag packageRoot insp.python
            (if containsBytes (strBytes "License-File") insp.metadata then "==58.3.0" else "==56.2.0")
            ("==" ++ asciiOfBytes gen) env.commitSha env.startTime env.endTime := by
  unfold rebuildWheel at h
  cases hi : inspectWheel env.origWhl with
  | error e => rw [hi] at h; simp at h
  | ok insp =>
    rw [hi] at h
    simp only [] at h
    cases hme : insp.metadata.isEmpty with
    | true => rw [hme] at h; simp at h
    | false =>
      rw [hme] at h
      simp only [Bool.false_eq_true, if_false] at h
      cases hg : findGenerator insp.wheelInfo with
      | none => rw [hg] at h; simp at h
      | some gen =>
        rw [hg] at h
        simp only [] at h
        cases hrb : env.runBuild
            (mkBuild wheel.filename wheel.url repo tag
              (if containsBytes (strBytes "License-File") insp.metadata
               then "==58.3.0" else "==56.2.0")
              ("==" ++ asciiOfBytes gen) packageRoot env.projectId) with
        | some e => rw [hrb] at h; simp at h
        | none =>
          rw [hrb] at h
          simp only [RebuildResult.ok.injEq] at h
          refine ⟨insp, gen, ?_, ?_, ?_, ?_, h.symm⟩
          · rfl
          · first | rfl | exact hme
          · first | rfl | exact hg
          · first | rfl | exact hrb

theorem rebuildWheel_subject_eq {env : RebuildEnv} {wheel : Release}
    {pkg repo tag packageRoot : String} {s : ProvenanceStatement}
    (h : rebuildWheel env wheel pkg repo tag packageRoot = .ok s) :
    s.subject = [{ name := wheel.filename, digest := [("sha256", wheel.sha256)] }] := by
  obtain ⟨insp, gen, _, _, _, _, hs⟩ := rebuildWheel_ok_inv h
  rw [hs]
  simp only [mkRebuildStmt]

/-- C10: the rebuilder's emitted statement identifies its single subject by
the published artifact's filename and the SHA-256 digest reported by the
package index's metadata (the `Release` record), for every environment —
in particular the digest is never recomputed from the downloaded reference
bytes or the rebuilt archive, since it equals the index-reported field no
matter what bytes the environment supplies. -/
theorem rebuild_subject_digest_from_index (env : RebuildEnv) (wheel : Release)
    (pkg repo tag packageRoot : String) (s : ProvenanceStatement)
    (h : rebuildWheel env wheel pkg repo tag packageRoot = .ok s) :
    s.subject = [{ name := wheel.filename, digest := [("sha256", wheel.sha256)] }] :=
  rebuildWheel_subject_eq h

/-- C10 witness: the fixture rebuild succeeds and its subject carries the
index-reported digest `"abc123"`. -/
theorem rebuild_subject_digest_witness :
    rStmt.subject = [{ name := rWheel.filename, digest := [("sha256", rWheel.sha256)] }] :=
  rebuild_subject_digest_from_index rEnv rWheel "demo" "github.com/o/r" "1.0" "." rStmt rfl

set_option maxRecDepth 8192 in
/-- C8 counterexample: on a successful rebuild from the fixture environment,
the emitted statement's second recipe argument (creation of the isolated
environment) is `"python3.9 -m venv /tmp/env"`, while the corresponding
command the submitted Cloud Build script executes is `"python3 -m venv env"`
(the third `&&`-separated command of the build step's script); the strings
differ, so the argument list does not reproduce the executed commands
verbatim. -/
theorem rebuild_recipe_args_counterexample :
    rebuildWheel rEnv rWheel "demo" "github.com/o/r" "1.0" "." = .ok rStmt ∧
    rStmt.recipe.arguments.getD 1 "" = "python3.9 -m venv /tmp/env" ∧
    (scriptCommands
        (((mkBuild rWheel.filename rWheel.url "github.com/o/r" "1.0" "==56.2.0" "==0.37.0" "."
            "proj").steps.getD 2 default).args.getD 1 "")).getD 2 ""
      = "python3 -m venv env" ∧
    "python3.9 -m venv /tmp/env" ≠ "python3 -m venv env" :=
  ⟨rfl, rfl, by decide, by decide⟩

/-- C8 (amended): on every successful rebuild the statement's recipe argument
list consists of exactly five shell-equivalent summary commands (clone,
create isolated environment, install pinned tools, change directory, invoke
build) parameterized by the same tag, repository, package root and pinned
setuptools/wheel versions that were passed to the submitted build — but the
strings paraphrase rather than verbatim reproduce the executed script
commands (which clone `https://<repo>` into `repo`, run `python3 -m venv
env`, use `env/bin` paths, and `cd repo/<root>`). -/
theorem rebuild_recipe_args (env : RebuildEnv) (wheel : Release)
    (pkg repo tag packageRoot : String) (s : ProvenanceStatement)
    (h : rebuildWheel env wheel pkg repo tag packageRoot = .ok s) :
    ∃ insp setuptoolsDep wheelDep, inspectWheel env.origWhl = .ok insp ∧
      s.recipe.arguments =
        ["git clone --branch=" ++ tag ++ " --single-branch " ++ repo,
         insp.python ++ " -m venv /tmp/env",
         "/tmp/env/bin/pip3 install setuptools" ++ setuptoolsDep ++ " wheel" ++ wheelDep,
         "cd " ++ packageRoot,
         "/tmp/env/bin/" ++ insp.python ++ " setup.py build bdist_wheel"] ∧
      env.runBuild (mkBuild wheel.filename wheel.url repo tag setuptoolsDep wheelDep
        packageRoot env.projectId) = none := by
  obtain ⟨insp, gen, hi, _, _, hrb, hs⟩ := rebuildWheel_ok_inv h
  exact ⟨insp,
    (if containsBytes (strBytes "License-File") insp.metadata then "==58.3.0" else "==56.2.0"),
    "==" ++ asciiOfBytes gen, hi, by rw [hs]; simp only [mkRebuildStmt], hrb⟩

/-- C8 witness: instantiation of the amended claim at the fixture rebuild. -/
theorem rebuild_recipe_args_witness :
    ∃ insp setuptoolsDep wheelDep, inspectWheel rEnv.origWhl = .ok insp ∧
      rStmt.recipe.arguments =
        ["git clone --branch=" ++ "1.0" ++ " --single-branch " ++ "github.com/o/r",
         insp.python ++ " -m venv /tmp/env",
         "/tmp/env/bin/pip3 install setuptools" ++ setuptoolsDep ++ " wheel" ++ wheelDep,
         "cd " ++ ".",
         "/tmp/env/bin/" ++ insp.python ++ " setup.py build bdist_wheel"] ∧
      rEnv.runBuild (mkBuild rWheel.filename rWheel.url "github.com/o/r" "1.0" setuptoolsDep
        wheelDep "." rEnv.projectId) = none :=
  rebuild_recipe_args rEnv rWheel "demo" "github.com/o/r" "1.0" "." rStmt rfl

/-- C4: every successfully emitted statement has a non-empty subject list
sorted ascending (lexicographically) by subject name — the Build Monitor
emits the sorted-by-name arrangement (a sorted permutation) of the retained
subject set, and the Rebuild Pipeline emits a one-element subject list. -/
theorem emitted_subject_lists_sorted :
    (∀ (env : MonitorEnv) (opt : MonitorOptions) (wfPath : String)
        (files : List (String × Int)) (r : WorkflowRun) (s : ProvenanceStatement),
        processRun env opt wfPath files r = RunOutcome.stmt s →
        s.subject ≠ [] ∧
        List.Pairwise (fun a b : Subject => a.name ≤ b.name) s.subject ∧
        ∃ subs, processArtifacts env opt.artifacts r files (env.artifactsOf r.id) []
            = .ok (false, subs) ∧ s.subject.Perm subs) ∧
    (∀ (env : RebuildEnv) (wheel : Release) (pkg repo tag packageRoot : String)
        (s : ProvenanceStatement), rebuildWheel env wheel pkg repo tag packageRoot = .ok s →
        s.subject = [{ name := wheel.filename, digest := [("sha256", wheel.sha256)] }] ∧
        s.subject ≠ [] ∧ List.Pairwise (fun a b : Subject => a.name ≤ b.name) s.subject) := by
  constructor
  · intro env opt wfPath files r s h
    obtain ⟨-, -, subs, hpa, hne, hs⟩ := processRun_stmt_inv h
    have hsubj : s.subject = sortSubjects subs := by rw [hs]; rfl
    have hperm : (sortSubjects subs).Perm subs :=
      List.mergeSort_perm subs (fun a b => decide (a.name ≤ b.name))
    refine ⟨?_, ?_, subs, hpa, ?_⟩
    · rw [hsubj]
      intro hnil
      apply hne
      have hx := hperm.symm
      rw [hnil] at hx
      exact hx.eq_nil
    · rw [hsubj]
      have hp := @List.sorted_mergeSort Subject (fun a b : Subject => decide (a.name ≤ b.name))
        (fun a b c hab hbc => by
          simp only [decide_eq_true_eq] at *
          exact le_trans hab hbc)
        (fun a b => by simpa using le_total a.name b.name)
        subs
      exact hp.imp (fun hab => of_decide_eq_true hab)
    · rw [hsubj]; exact hperm
  · intro env wheel pkg repo tag packageRoot s h
    have hsub := rebuildWheel_subject_eq h
    exact ⟨hsub, by rw [hsub]; exact (by simp), by rw [hsub]; exact List.pairwise_singleton _ _⟩

/-- C4 witness: instantiation of the monitor conjunct at the fixture run. -/
theorem emitted_subject_lists_sorted_witness :
    wStmt.subject ≠ [] ∧
    List.Pairwise (fun a b : Subject => a.name ≤ b.name) wStmt.subject ∧
    ∃ subs, processArtifacts wEnv wOpt.artifacts wRun (releasedFilesOf [wRelease])
        (wEnv.artifactsOf wRun.id) [] = .ok (false, subs) ∧ wStmt.subject.Perm subs :=
  emitted_subject_lists_sorted.1 wEnv wOpt "wf.yml" (releasedFilesOf [wRelease]) wRun wStmt rfl

/-- C7 (code bug): with a decodable bearer credential whose claims lack an
`email` entry, the upload handler panics on the unchecked type assertion
`claims["email"].(string)` instead of failing Forbidden as the claim
requires; on the other inputs it behaves as claimed — a missing credential
or undecodable claims yield Unauthenticated, and a present email is
authorized iff it appears verbatim in the policy's `authorized_builders`,
failing Forbidden otherwise. -/
theorem upload_auth_missing_email_crash :
    handleUpload uDecode (.ok uPolicy) "bearer noemail" = UploadOutcome.crash ∧
    handleUpload uDecode (.ok uPolicy) "" = UploadOutcome.unauthenticated ∧
    handleUpload uDecode (.ok uPolicy) "bearer garbage" = UploadOutcome.unauthenticated ∧
    handleUpload uDecode (.ok uPolicy) "bearer good"
      = UploadOutcome.authorized "builder@example.com" ∧
    handleUpload uDecode (.ok uPolicy) "bearer other" = UploadOutcome.forbidden :=
  ⟨rfl, rfl, rfl, rfl, rfl⟩

/-- C9 counterexample: with the policy root configured as `"policies"`
(instead of the default `"."`) and a policy file at
`policies/alpha/beta/policy.yaml`, the two path segments immediately above
the file name are `alpha` and `beta`, but `fetchPolicies` assigns
`scope = "policies"` and `package = "alpha"` — the first two segments of the
joined path, which include the root. -/
theorem fetchPolicies_root_counterexample :
    (fetchPolicies pParse pSha
        [.dir "policies" [.dir "alpha" [.dir "beta" [.file "policy.yaml" [1]]]]]
        ["policies"] 5).map (fun ps => ps.map (fun p => (p.scope, p.package)))
      = some [("policies", "alpha")] ∧
    ("policies", "alpha") ≠ ("alpha", "beta") :=
  ⟨rfl, by decide⟩

/-- C9 (amended): `fetchPolicies` derives `scope` and `package` from the
first two `/`-segments of each found path (root directory included), so with
the **default** policy root `"."` they equal the two path segments
immediately above the `policy.yaml` file name: for every scope and package
directory pair and file content, the bulk fetch yields exactly that scope
and package, with the digest recomputed from the raw bytes. -/
theorem fetchPolicies_default_root (parse : List Nat → Policy) (sha : List Nat → String)
    (scope pkg : String) (content : List Nat) :
    fetchPolicies parse sha [.dir scope [.dir pkg [.file "policy.yaml" content]]] [] 4
      = some [{ parse content with digest := sha content, scope := scope, package := pkg }] := by
  simp [fetchPolicies, walkPolicies, readDirFs, readFileFs, policyFromPath,
    FsNode.isDirNode, FsNode.nodeName, List.mapM, List.mapM.loop]
